import Mathlib

/-!
Verification development for the glimlang-recorder-dev core
(src/src/core/video.py and src/src/core/audio.py), shallowly embedded.
Pixel and PCM payloads are abstracted away; queue states are lists with the
front of the list being the oldest element, matching FIFO `queue.Queue`.
The second definition of `_dedicated_capture_thread` / `_dedicated_write_thread`
(video.py 941-1132) shadows the first at class-body execution time, so the
embedding follows the later, production versions.
-/

/-- TimestampedFrame as assembled in `ScreenRecorder._dedicated_capture_thread`
(video.py 983-988): the pixel buffer is abstracted away, keeping the
`frame_number`, `timestamp` and `is_key_frame` metadata of the frame dict. -/
structure Frame where
  frame_number : Nat
  timestamp : Nat
  is_key_frame : Bool
deriving DecidableEq, Repr

/-- Capture-side state: the bounded `_frame_queue` contents, the produced-frame
counter `_frame_count` and the drop counter `_dropped_frames`. -/
structure CapState where
  queue : List Frame
  frame_count : Nat
  dropped : Nat
deriving DecidableEq, Repr

/-- Helper turning an optional evicted frame into the list of frames it removed. -/
def optList : Option Frame → List Frame
  | none => []
  | some x => [x]

/-- The scan loop of the `queue.Full` handler (video.py 998-1005): frames are
popped while the queue is nonempty and fewer than 5 frames have been set
aside; the loop stops at the first non-key frame, which becomes the eviction
candidate, while popped key frames accumulate in `temp`.
Returns (set-aside key frames, evicted frame if any, remaining queue). -/
def scanLoop (temp : List Frame) : List Frame → List Frame × Option Frame × List Frame
  | [] => (temp, none, [])
  | x :: rest =>
    if 5 ≤ temp.length then (temp, none, x :: rest)
    else if x.is_key_frame then scanLoop (temp ++ [x]) rest
    else (temp, some x, rest)

/-- One push of a freshly captured frame onto the capacity-`cap` frame queue
(video.py 991-1019): a non-full queue accepts the frame and `_frame_count`
is incremented; on `queue.Full` the scan loop runs, set-aside key frames are
re-queued with `put_nowait` (landing at the back), and the new frame is
pushed if an eviction made room; otherwise that final `put_nowait` raises
`queue.Full` again and the bare `except` just increments `_dropped_frames`,
losing the new frame. Both overflow outcomes increment `_dropped_frames`
by one and leave `_frame_count` unchanged. -/
def capturePush (cap : Nat) (s : CapState) (f : Frame) : CapState :=
  if s.queue.length < cap then
    { s with queue := s.queue ++ [f], frame_count := s.frame_count + 1 }
  else
    let r := scanLoop [] s.queue
    let q1 := r.2.2 ++ r.1
    if q1.length < cap then
      { s with queue := q1 ++ [f], dropped := s.dropped + 1 }
    else
      { s with queue := q1, dropped := s.dropped + 1 }

/-- Frame metadata as built at video.py 983-988: the sequence number is the
current `_frame_count` and every 30th frame is a key (anchor) frame. -/
def mkFrame (n ts : Nat) : Frame :=
  { frame_number := n, timestamp := ts, is_key_frame := n % 30 == 0 }

/-- One capture iteration (video.py 971-1026): build the frame dict from the
current counters and attempt the non-blocking push. -/
def captureStep (cap : Nat) (s : CapState) (ts : Nat) : CapState :=
  capturePush cap s (mkFrame s.frame_count ts)

/-- The write thread's batch loop (video.py 1094-1128) draining a queue at
shutdown: frames are appended to `batch_write_buffer` in pop order and
flushed to the VideoWriter whenever the batch reaches `max_batch_size = 5`,
with a final flush at the end. Returns the frames in sink-write order. -/
def writerDrain (batch : List Frame) : List Frame → List Frame
  | [] => batch
  | f :: rest =>
    if 5 ≤ (batch ++ [f]).length then (batch ++ [f]) ++ writerDrain [] rest
    else writerDrain (batch ++ [f]) rest

/-- Executable non-decreasing check on a list of sequence numbers. -/
def nonDecreasing : List Nat → Bool
  | [] => true
  | [_] => true
  | a :: b :: rest => decide (a ≤ b) && nonDecreasing (b :: rest)

/-- The batch buffer never reorders: draining writes exactly the pending batch
followed by the queue contents, in FIFO order. -/
theorem writerDrain_eq (q : List Frame) : ∀ batch : List Frame, writerDrain batch q = batch ++ q := by
  induction q with
  | nil => intro batch; simp [writerDrain]
  | cons f rest ih =>
    intro batch
    by_cases h : 5 ≤ (batch ++ [f]).length
    · simp [writerDrain, h, ih]
    · simp [writerDrain, h, ih]

/-- Decomposition of the overflow scan: the set-aside frames, the evicted frame
(if any) and the remaining queue re-assemble, in that order, to the original
accumulator and queue. -/
theorem scanLoop_decomp (q : List Frame) :
    ∀ temp : List Frame,
      (scanLoop temp q).1 ++ optList (scanLoop temp q).2.1 ++ (scanLoop temp q).2.2 = temp ++ q := by
  induction q with
  | nil => intro temp; simp [scanLoop, optList]
  | cons x rest ih =>
    intro temp
    by_cases h5 : 5 ≤ temp.length
    · simp [scanLoop, h5, optList]
    · by_cases hk : x.is_key_frame
      · simp only [scanLoop, if_neg h5, if_pos hk]
        rw [ih (temp ++ [x])]
        simp
      · simp [scanLoop, h5, hk, optList]

/-- The frame evicted by the overflow scan is never a key (anchor) frame. -/
theorem scanLoop_evicted_not_key (q : List Frame) :
    ∀ temp t r x, scanLoop temp q = (t, some x, r) → x.is_key_frame = false := by
  induction q with
  | nil =>
    intro temp t r x h
    simp [scanLoop] at h
  | cons y rest ih =>
    intro temp t r x h
    by_cases h5 : 5 ≤ temp.length
    · simp [scanLoop, h5] at h
    · by_cases hk : y.is_key_frame
      · simp only [scanLoop, if_neg h5, if_pos hk] at h
        exact ih (temp ++ [y]) t r x h
      · simp [scanLoop, h5, hk] at h
        obtain ⟨-, hx, -⟩ := h
        rw [← hx]
        exact Bool.eq_false_iff.mpr hk

/-- Shared adaptive state observed by the write thread (video.py 1056, 1077-1086):
`frames_behind` is the backlog streak counter and `emergency` is the
Degraded-mode flag `_emergency_mode`. -/
structure AdaptState where
  frames_behind : Nat
  emergency : Bool
deriving DecidableEq, Repr

/-- One occupancy observation by the write thread (video.py 1073-1086). The
source comparison `queue_size > self.cfg.buffer_size * 0.75` is the exact
integer comparison `3 * cap < 4 * qsize` (0.75 and the product are exactly
representable for realistic sizes). Above the high-water mark the streak
counter increments and Degraded mode engages once the counter exceeds 3;
below it the counter decrements toward zero (max(0, fb - 1)) and Degraded
mode is left when the counter reaches zero. -/
def adaptStep (cap : Nat) (s : AdaptState) (qsize : Nat) : AdaptState :=
  if 3 * cap < 4 * qsize then
    { frames_behind := s.frames_behind + 1,
      emergency := if 3 < s.frames_behind + 1 ∧ s.emergency = false then true else s.emergency }
  else
    { frames_behind := s.frames_behind - 1,
      emergency := if s.frames_behind - 1 = 0 ∧ s.emergency = true then false else s.emergency }

/-- `AudioRecorder._audio_callback` (audio.py 140-151): a non-blocking
`put_nowait` of the copied PCM block onto the bounded `_q`; `queue.Full`
is swallowed by the `except` clause, so a full queue keeps its contents and
the incoming block is discarded. Blocks are abstracted to sequence ids; the
function is total, mirroring that the callback never raises to its caller. -/
def audioCallback (cap : Nat) (q : List Nat) (b : Nat) : List Nat :=
  if q.length < cap then q ++ [b] else q

/-- File system abstracted to an association list from path ids to byte sizes. -/
abbrev FS := List (Nat × Nat)

/-- `os.path.exists` over the abstract file system. -/
def fsExists (fs : FS) (p : Nat) : Bool := (fs.lookup p).isSome

/-- `os.path.getsize` over the abstract file system (0 when absent). -/
def fsSize (fs : FS) (p : Nat) : Nat := (fs.lookup p).getD 0

/-- `os.remove` over the abstract file system (no error when absent, matching
the guarded removal in the source). -/
def fsRemove (fs : FS) (p : Nat) : FS := fs.filter (fun e => e.1 != p)

/-- Create or overwrite a file of the given size. -/
def fsSet (fs : FS) (p sz : Nat) : FS := (p, sz) :: fsRemove fs p

/-- Environment of `ScreenRecorder._mux_audio_video`: the recorder/config facts
it reads and the outcome of the external FFmpeg invocation. `toolExit = none`
models `subprocess.TimeoutExpired` or any exception during the call;
`outputSize` is the size of the output file the tool leaves behind, if any. -/
structure MuxEnv where
  hasRecorder : Bool
  videoTmpPath : Option Nat
  audioPath : Nat
  outputPath : Nat
  ffmpegFound : Bool
  ffmpegTestOk : Bool
  toolExit : Option Nat
  outputSize : Option Nat
deriving DecidableEq, Repr

/-- Outcomes of `_mux_audio_video`, split by the RuntimeError raised (early
errors, in source check order) or the post-invocation result. -/
inductive MuxResult where
  | errNoRecorder
  | errAudioMissing (p : Nat)
  | errVideoMissing (p : Nat)
  | errAudioSmall (p sz : Nat)
  | errVideoSmall (p sz : Nat)
  | errNoFfmpeg
  | errFfmpegTest
  | toolFailed
  | outputMissing
  | success
deriving DecidableEq, Repr

/-- True for the failures `_mux_audio_video` raises before the external tool is
invoked (video.py 743-773). -/
def isEarlyError : MuxResult → Bool
  | .errNoRecorder => true
  | .errAudioMissing _ => true
  | .errVideoMissing _ => true
  | .errAudioSmall _ _ => true
  | .errVideoSmall _ _ => true
  | .errNoFfmpeg => true
  | .errFfmpegTest => true
  | .toolFailed => false
  | .outputMissing => false
  | .success => false

/-- The try/finally block of `_mux_audio_video` (video.py 798-833): the
external tool runs (possibly creating the output file), a timeout or
non-zero exit is a failure, exit 0 without an output file is a failure, and
the `finally` clause removes both the temporary video file and the WAV
regardless of the outcome. -/
def muxInvoke (env : MuxEnv) (fs : FS) (vpath : Nat) : MuxResult × FS :=
  let fs1 : FS :=
    match env.outputSize with
    | some sz => fsSet fs env.outputPath sz
    | none => fs
  let res : MuxResult :=
    match env.toolExit with
    | none => .toolFailed
    | some 0 => if fsExists fs1 env.outputPath = false then .outputMissing else .success
    | some _ => .toolFailed
  (res, fsRemove (fsRemove fs1 vpath) env.audioPath)

/-- `ScreenRecorder._mux_audio_video` (video.py 741-833) over the abstract file
system: the precondition checks in source order (recorder/path set, both
files exist, both at least 1024 bytes, FFmpeg found and self-tested), then
the external invocation with its unconditional cleanup. Returns the outcome
and the file system as left behind by the call. -/
def muxAudioVideo (env : MuxEnv) (fs : FS) : MuxResult × FS :=
  match env.videoTmpPath with
  | none => (.errNoRecorder, fs)
  | some vpath =>
    if env.hasRecorder = false then (.errNoRecorder, fs)
    else if fsExists fs env.audioPath = false then (.errAudioMissing env.audioPath, fs)
    else if fsExists fs vpath = false then (.errVideoMissing vpath, fs)
    else if fsSize fs env.audioPath < 1024 then
      (.errAudioSmall env.audioPath (fsSize fs env.audioPath), fs)
    else if fsSize fs vpath < 1024 then
      (.errVideoSmall vpath (fsSize fs vpath), fs)
    else if env.ffmpegFound = false then (.errNoFfmpeg, fs)
    else if env.ffmpegTestOk = false then (.errFfmpegTest, fs)
    else muxInvoke env fs vpath

/-- The conjunction of every check `_mux_audio_video` performs before invoking
the external tool; the tool is invoked exactly when this holds. -/
def muxPreOk (env : MuxEnv) (fs : FS) : Bool :=
  match env.videoTmpPath with
  | none => false
  | some vpath =>
    env.hasRecorder && fsExists fs env.audioPath && fsExists fs vpath
      && decide (1024 ≤ fsSize fs env.audioPath) && decide (1024 ≤ fsSize fs vpath)
      && env.ffmpegFound && env.ffmpegTestOk

/-- Caller-visible outcome of the merge branch of `_finalize_recording`. -/
inductive FinalizeOutcome where
  | merged
  | audioSavedSeparately
  | audioLost
deriving DecidableEq, Repr

/-- The merge branch of `ScreenRecorder._finalize_recording` (video.py
1212-1239): run the mux; on success report the merged recording; on any
exception fall back to copying the WAV next to the output path if it still
exists, otherwise only report that the merge failed (the audio is gone). -/
def finalizeMux (env : MuxEnv) (fs : FS) (finalAudioPath : Nat) : FinalizeOutcome × FS :=
  match muxAudioVideo env fs with
  | (.success, fs1) => (.merged, fs1)
  | (_, fs1) =>
    if fsExists fs1 env.audioPath then
      (.audioSavedSeparately, fsSet fs1 finalAudioPath (fsSize fs1 env.audioPath))
    else
      (.audioLost, fs1)

/-- `ScreenRecorder._emit_status` (video.py 474-479): the injected callback is
run inside `try/except Exception: pass`, so a raising user callback never
propagates to the emitting caller. Callbacks are modelled as functions that
may return an error value. -/
def emitStatus (cb : String → Except String Unit) (msg : String) : Except String Unit :=
  match cb msg with
  | .ok _ => .ok ()
  | .error _ => .ok ()

/-- The capture scheduler's only suspension (video.py 1031-1035): when ahead of
the next target instant by `t` seconds it sleeps `min(t, 0.0005)` seconds. -/
def schedulerSleep (t : ℚ) : ℚ := min t (1 / 2000)

/-- Inner backend loop of `probe_cameras` (video.py 1441-1454): try each
backend in order until one opens the camera; `opens i b` abstracts
`cv2.VideoCapture(i, b).isOpened()`. -/
def probeInner (opens : Nat → Nat → Bool) (i : Nat) : List Nat → Bool
  | [] => false
  | b :: rest => if opens i b then true else probeInner opens i rest

/-- Index loop of `probe_cameras` (video.py 1435-1457): the fuel counts the
remaining candidate indices; on the first index whose backend loop succeeds
the index is appended and the outer loop breaks immediately. -/
def probeGo (opens : Nat → Nat → Bool) (backends : List Nat) : Nat → Nat → List Nat
  | 0, _ => []
  | fuel + 1, i =>
    if probeInner opens i backends then [i] else probeGo opens backends fuel (i + 1)

/-- `probe_cameras` (video.py 1423-1462) over the abstract camera oracle. -/
def probe_cameras (opens : Nat → Nat → Bool) (backends : List Nat) (max_index : Nat) : List Nat :=
  probeGo opens backends max_index 0

/-- Helper: lengths of the three parts of the overflow scan sum to the length
of the accumulator plus the queue. -/
theorem scanLoop_length (q temp : List Frame) :
    (scanLoop temp q).1.length + (optList (scanLoop temp q).2.1).length
      + (scanLoop temp q).2.2.length = temp.length + q.length := by
  have h := congrArg List.length (scanLoop_decomp q temp)
  simp only [List.length_append] at h
  omega

/-- Claim C2 (counterexample): with a capacity-2 queue holding two anchor
(key) frames, pushing a new frame does not evict the oldest frame and does
not push the new frame — the queue is returned unchanged and the new frame
is silently discarded (only the drop counter moves), contradicting the claim
that the oldest frame is evicted and the new frame pushed in either case. -/
theorem overflow_full_anchor_queue_drops_new_frame :
    (capturePush 2 ⟨[⟨0, 0, true⟩, ⟨30, 1, true⟩], 2, 0⟩ ⟨31, 2, false⟩).queue
        = [⟨0, 0, true⟩, ⟨30, 1, true⟩]
    ∧ (⟨31, 2, false⟩ : Frame) ∉ (capturePush 2 ⟨[⟨0, 0, true⟩, ⟨30, 1, true⟩], 2, 0⟩ ⟨31, 2, false⟩).queue
    ∧ (capturePush 2 ⟨[⟨0, 0, true⟩, ⟨30, 1, true⟩], 2, 0⟩ ⟨31, 2, false⟩).dropped = 1 := by
  decide

/-- Claim C2 (amended): on a push against a full queue the handler scans up to
five frames from the front; if a non-anchor frame is found it is evicted
(and it is genuinely non-anchor), the scanned anchor frames are re-queued at
the back and the new frame is pushed; if no non-anchor frame is found within
the scan bound, nothing is evicted and the new frame is discarded. In every
overflow the drop counter increments by exactly one, the produced-frame
counter is unchanged, and no anchor frame present in the queue is ever
evicted. -/
theorem overflow_policy_amended (cap : Nat) (s : CapState) (f : Frame)
    (hfull : s.queue.length = cap) :
    (capturePush cap s f).dropped = s.dropped + 1
    ∧ (capturePush cap s f).frame_count = s.frame_count
    ∧ (∀ t x r, scanLoop [] s.queue = (t, some x, r) →
        x.is_key_frame = false ∧ (capturePush cap s f).queue = (r ++ t) ++ [f])
    ∧ (∀ t r, scanLoop [] s.queue = (t, none, r) →
        (capturePush cap s f).queue = r ++ t)
    ∧ (∀ g, g ∈ s.queue → g.is_key_frame = true → g ∈ (capturePush cap s f).queue) := by
  have hnl : ¬ s.queue.length < cap := by omega
  have hlen := scanLoop_length s.queue []
  have hdec := scanLoop_decomp s.queue []
  rcases hsc : scanLoop [] s.queue with ⟨t, d, r⟩
  rw [hsc] at hlen hdec
  simp only [List.nil_append] at hdec
  cases d with
  | some x =>
    simp only [optList, List.length_cons, List.length_nil] at hlen
    have hq1 : (r ++ t).length < cap := by
      simp only [List.length_append]
      omega
    have hpush : capturePush cap s f =
        { s with queue := (r ++ t) ++ [f], dropped := s.dropped + 1 } := by
      simp only [capturePush, if_neg hnl, hsc, if_pos hq1]
    have hnk : x.is_key_frame = false := scanLoop_evicted_not_key s.queue [] t r x hsc
    refine ⟨by rw [hpush], by rw [hpush], ?_, ?_, ?_⟩
    · intro t' x' r' h'
      injection h' with h1 h2
      injection h2 with h3 h4
      injection h3 with h5
      subst h1; subst h4; subst h5
      exact ⟨hnk, by rw [hpush]⟩
    · intro t' r' h'
      injection h' with h1 h2
      injection h2 with h3 h4
      exact Option.noConfusion h3
    · intro g hg hgk
      rw [hpush]
      have hg2 : g ∈ t ++ ([x] ++ r) := by
        rw [← hdec] at hg
        simpa [optList, List.append_assoc] using hg
      rcases List.mem_append.mp hg2 with h1 | h2
      · simp [h1]
      · rcases List.mem_append.mp h2 with h3 | h4
        · exfalso
          have hgx : g = x := by simpa using h3
          rw [hgx, hnk] at hgk
          exact Bool.false_ne_true hgk
        · simp [h4]
  | none =>
    simp only [optList, List.length_nil] at hlen
    have hq1 : ¬ (r ++ t).length < cap := by
      simp only [List.length_append]
      omega
    have hpush : capturePush cap s f =
        { s with queue := r ++ t, dropped := s.dropped + 1 } := by
      simp only [capturePush, if_neg hnl, hsc, if_neg hq1]
    refine ⟨by rw [hpush], by rw [hpush], ?_, ?_, ?_⟩
    · intro t' x' r' h'
      injection h' with h1 h2
      injection h2 with h3 h4
      exact Option.noConfusion h3
    · intro t' r' h'
      injection h' with h1 h2
      injection h2 with h3 h4
      subst h1; subst h4
      rw [hpush]
    · intro g hg hgk
      rw [hpush]
      have hg2 : g ∈ t ++ r := by
        rw [← hdec] at hg
        simpa [optList] using hg
      rcases List.mem_append.mp hg2 with h1 | h2
      · simp [h1]
      · simp [h2]

/-- Witness for `overflow_policy_amended` at a concrete full queue. -/
theorem overflow_policy_amended_witness :
    (capturePush 2 ⟨[⟨0, 0, true⟩, ⟨1, 1, false⟩], 2, 0⟩ ⟨2, 2, false⟩).dropped = 0 + 1 :=
  (overflow_policy_amended 2 ⟨[⟨0, 0, true⟩, ⟨1, 1, false⟩], 2, 0⟩ ⟨2, 2, false⟩ rfl).1

/-- A burst of four capture iterations into a capacity-3 queue with no consumer:
frames 0 (anchor), 1 and 2 fill the queue, then frame 3 overflows it. -/
def reorderRun : CapState :=
  List.foldl (fun s ts => captureStep 3 s ts) ⟨[], 0, 0⟩ [0, 1, 2, 3]

/-- Claim C3 (code bug): after the overflow at the fourth capture, the write
thread drains the queue and the sink receives sequence numbers [2, 0, 3] —
the eviction scan re-queued anchor frame 0 at the back, behind frame 2, so
the written sequence numbers are not non-decreasing. -/
theorem overflow_reorders_written_sequence :
    (writerDrain [] reorderRun.queue).map Frame.frame_number = [2, 0, 3]
    ∧ nonDecreasing ((writerDrain [] reorderRun.queue).map Frame.frame_number) = false := by
  decide

/-- A burst of four capture iterations into a capacity-2 queue with no consumer:
two normal pushes then two overflows, each of which enqueues the new frame
without incrementing the produced-frame counter. -/
def burstRun : CapState :=
  List.foldl (fun s ts => captureStep 2 s ts) ⟨[], 0, 0⟩ [0, 1, 2, 3]

/-- Claim C8 (code bug): after the burst, the counters read
`_frame_count = 2` and `_dropped_frames = 2` while draining the queue writes
2 frames to the sink, so `frames_produced - frames_dropped` is 0 and differs
from `frames_written` by 2, outside the claimed tolerance of 1. The overflow
path enqueues the new frame without incrementing `_frame_count`, so each
eviction skews the accounting by one. -/
theorem drop_accounting_violated :
    burstRun.frame_count = 2
    ∧ burstRun.dropped = 2
    ∧ (writerDrain [] burstRun.queue).length = 2
    ∧ ((burstRun.frame_count : Int) - (burstRun.dropped : Int)
        - ((writerDrain [] burstRun.queue).length : Int)).natAbs = 2 := by
  decide

/-- Claim C7: the capture scheduler's queue interaction is non-blocking. Every
push completes immediately and accounts the frame exactly once (the
produced counter or the drop counter advances by exactly one, never both),
the queue never grows beyond the larger of its capacity and its current
length, a full queue takes the overflow/drop path (the drop counter
advances), and the scheduler's only suspension is a sleep capped at
0.0005 seconds. -/
theorem capture_scheduler_nonblocking (cap : Nat) (s : CapState) (f : Frame) (t : ℚ) :
    (capturePush cap s f).frame_count + (capturePush cap s f).dropped
        = s.frame_count + s.dropped + 1
    ∧ (capturePush cap s f).queue.length ≤ max cap s.queue.length
    ∧ (¬ s.queue.length < cap → (capturePush cap s f).dropped = s.dropped + 1)
    ∧ schedulerSleep t ≤ 1 / 2000 := by
  by_cases h : s.queue.length < cap
  · have hpush : capturePush cap s f =
        { s with queue := s.queue ++ [f], frame_count := s.frame_count + 1 } := by
      simp only [capturePush, if_pos h]
    refine ⟨?_, ?_, ?_, min_le_right _ _⟩
    · rw [hpush]; dsimp only; omega
    · rw [hpush]; dsimp only
      have hb : (s.queue ++ [f]).length ≤ cap := by
        simp only [List.length_append, List.length_cons, List.length_nil]; omega
      exact le_trans hb (le_max_left _ _)
    · intro hc; exact absurd h hc
  · have hlen := scanLoop_length s.queue []
    rcases hsc : scanLoop [] s.queue with ⟨tp, d, r⟩
    rw [hsc] at hlen
    have hq1 : (r ++ tp).length ≤ s.queue.length := by
      cases d <;> simp only [optList, List.length_append, List.length_cons,
        List.length_nil] at hlen ⊢ <;> omega
    by_cases h2 : (r ++ tp).length < cap
    · have hpush : capturePush cap s f =
          { s with queue := (r ++ tp) ++ [f], dropped := s.dropped + 1 } := by
        simp only [capturePush, if_neg h, hsc, if_pos h2]
      refine ⟨?_, ?_, fun _ => ?_, min_le_right _ _⟩
      · rw [hpush]; dsimp only; omega
      · rw [hpush]; dsimp only
        have hb : ((r ++ tp) ++ [f]).length ≤ cap := by
          simp only [List.length_append, List.length_cons, List.length_nil]
          simp only [List.length_append] at h2
          omega
        exact le_trans hb (le_max_left _ _)
      · rw [hpush]
    · have hpush : capturePush cap s f =
          { s with queue := r ++ tp, dropped := s.dropped + 1 } := by
        simp only [capturePush, if_neg h, hsc, if_neg h2]
      refine ⟨?_, ?_, fun _ => ?_, min_le_right _ _⟩
      · rw [hpush]; dsimp only; omega
      · rw [hpush]; dsimp only
        exact le_trans hq1 (le_max_right _ _)
      · rw [hpush]

/-- Witness for `capture_scheduler_nonblocking` at a concrete full queue. -/
theorem capture_scheduler_nonblocking_witness :
    (capturePush 1 ⟨[⟨0, 0, true⟩], 1, 0⟩ ⟨1, 1, false⟩).dropped = 0 + 1 :=
  (capture_scheduler_nonblocking 1 ⟨[⟨0, 0, true⟩], 1, 0⟩ ⟨1, 1, false⟩ 1).2.2.1 (by decide)

/-- Claim C4 (counterexample): with the audio queue full (capacity 1 holding
block 0), the callback leaves the queue unchanged: the oldest block 0 is
kept and the newly arrived block 1 is the one discarded, contradicting the
claim that the oldest block is dropped and the new block enqueued. -/
theorem audio_overflow_keeps_oldest :
    audioCallback 1 [0] 1 = [0]
    ∧ (1 : Nat) ∉ audioCallback 1 [0] 1
    ∧ (0 : Nat) ∈ audioCallback 1 [0] 1 := by
  decide

/-- Claim C4 (amended): the audio callback only attempts a non-blocking push of
the block; it is a total function (never blocks or raises into the audio
hardware caller), on overflow the queue is left unchanged and the newly
arrived block is silently discarded, on a non-full queue the block is
appended, and no block already queued is ever removed by the callback. -/
theorem audio_callback_amended (cap : Nat) (q : List Nat) (b : Nat) :
    (cap ≤ q.length → audioCallback cap q b = q)
    ∧ (q.length < cap → audioCallback cap q b = q ++ [b])
    ∧ (∀ x ∈ q, x ∈ audioCallback cap q b) := by
  unfold audioCallback
  by_cases h : q.length < cap
  · refine ⟨fun hc => absurd h (by omega), fun _ => by rw [if_pos h], fun x hx => ?_⟩
    rw [if_pos h]
    exact List.mem_append_left _ hx
  · refine ⟨fun _ => by rw [if_neg h], fun hc => absurd hc h, fun x hx => ?_⟩
    rw [if_neg h]
    exact hx

/-- Witness for `audio_callback_amended` on a concrete full queue. -/
theorem audio_callback_amended_witness :
    audioCallback 2 [5, 6] 7 = [5, 6] :=
  (audio_callback_amended 2 [5, 6] 7).1 (by decide)

/-- Helper: once Degraded, a run of above-threshold observations keeps the
controller Degraded and advances the streak counter. -/
theorem adaptStep_high_run_degraded (cap q : Nat) (hq : 3 * cap < 4 * q) :
    ∀ n fb, List.foldl (adaptStep cap) ⟨fb, true⟩ (List.replicate n q) = ⟨fb + n, true⟩ := by
  intro n
  induction n with
  | zero => intro fb; simp
  | succ m ih =>
    intro fb
    rw [List.replicate_succ, List.foldl_cons]
    have hstep : adaptStep cap ⟨fb, true⟩ q = ⟨fb + 1, true⟩ := by
      simp [adaptStep, hq]
    rw [hstep, ih]
    congr 1
    omega

/-- Helper: from a Normal state, a run of above-threshold observations
advances the streak counter and enters Degraded exactly when the counter
passes 3. -/
theorem adaptStep_high_run (cap q : Nat) (hq : 3 * cap < 4 * q) :
    ∀ n fb, List.foldl (adaptStep cap) ⟨fb, false⟩ (List.replicate n q)
      = ⟨fb + n, decide (4 ≤ fb + n ∧ 1 ≤ n)⟩ := by
  intro n
  induction n with
  | zero => intro fb; simp
  | succ m ih =>
    intro fb
    rw [List.replicate_succ, List.foldl_cons]
    by_cases h4 : 3 < fb + 1
    · have hstep : adaptStep cap ⟨fb, false⟩ q = ⟨fb + 1, true⟩ := by
        simp [adaptStep, hq, h4]
      rw [hstep, adaptStep_high_run_degraded cap q hq m (fb + 1)]
      have : decide (4 ≤ fb + (m + 1) ∧ 1 ≤ m + 1) = true := by
        simp only [decide_eq_true_eq]
        omega
      rw [this]
      congr 1
      omega
    · have hstep : adaptStep cap ⟨fb, false⟩ q = ⟨fb + 1, false⟩ := by
        simp [adaptStep, hq, h4]
      rw [hstep, ih (fb + 1)]
      rw [show fb + 1 + m = fb + (m + 1) by omega]
      congr 1
      exact decide_eq_decide.mpr (by omega)

/-- Helper: in a Normal state, below-threshold observations keep the controller
Normal and walk the streak counter down (saturating at zero). -/
theorem adaptStep_low_run_normal (cap q : Nat) (hq : ¬ 3 * cap < 4 * q) :
    ∀ m fb, List.foldl (adaptStep cap) ⟨fb, false⟩ (List.replicate m q) = ⟨fb - m, false⟩ := by
  intro m
  induction m with
  | zero => intro fb; simp
  | succ k ih =>
    intro fb
    rw [List.replicate_succ, List.foldl_cons]
    have hstep : adaptStep cap ⟨fb, false⟩ q = ⟨fb - 1, false⟩ := by
      simp [adaptStep, hq]
    rw [hstep, ih]
    congr 1
    omega

/-- Helper: from a Degraded state with streak counter `c`, a run of `m`
below-threshold observations walks the counter down by `m` and returns to
Normal exactly when the counter reaches zero, i.e. when `m ≥ max c 1`. -/
theorem adaptStep_low_run_degraded (cap q : Nat) (hq : ¬ 3 * cap < 4 * q) :
    ∀ m c, List.foldl (adaptStep cap) ⟨c, true⟩ (List.replicate m q)
      = ⟨c - m, decide (m < c ∨ m = 0)⟩ := by
  intro m
  induction m with
  | zero =>
    intro c
    simp
  | succ k ih =>
    intro c
    rw [List.replicate_succ, List.foldl_cons]
    by_cases hc : c - 1 = 0
    · have hstep : adaptStep cap ⟨c, true⟩ q = ⟨c - 1, false⟩ := by
        simp [adaptStep, hq, hc]
      rw [hstep, adaptStep_low_run_normal cap q hq k (c - 1)]
      have : decide (k + 1 < c ∨ k + 1 = 0) = false := by
        simp only [decide_eq_false_iff_not]
        omega
      rw [this]
      congr 1
      omega
    · have hstep : adaptStep cap ⟨c, true⟩ q = ⟨c - 1, true⟩ := by
        simp [adaptStep, hq, hc]
      rw [hstep, ih (c - 1)]
      rw [show c - 1 - k = c - (k + 1) by omega]
      congr 1
      exact decide_eq_decide.mpr (by omega)

/-- Claim C5 (counterexample): with capacity 4 (high-water mark 3), the
observation sequence [4, 4, 4, 0, 4, 4] transitions the controller from
Normal to Degraded on its final observation even though the fourth
observation (queue size 0) is below the threshold — the streak counter is
only decremented, not reset, so the transition happens after just two
consecutive above-threshold observations, fewer than the k = 4 consecutive
observations the claim requires. -/
theorem adaptive_transition_nonconsecutive :
    (List.foldl (adaptStep 4) ⟨0, false⟩ [4, 4, 4, 0, 4]).emergency = false
    ∧ (List.foldl (adaptStep 4) ⟨0, false⟩ [4, 4, 4, 0, 4, 4]).emergency = true
    ∧ ¬ 3 * 4 < 4 * 0 := by
  decide

/-- Claim C5 (amended): the controller keeps a saturating streak counter,
incremented on above-threshold observations and decremented toward zero on
below-threshold ones; it enters Degraded exactly when the counter exceeds 3,
so from the initial state a run of above-threshold observations triggers
Degraded exactly when it is at least 4 long (never on a shorter run), and
from Degraded with counter `c` a run of below-threshold observations
restores Normal exactly when it is at least `max c 1` long. Observations on
one side of the threshold need not be consecutive in general, because the
counter is decremented rather than reset. -/
theorem adaptive_hysteresis_amended (cap qh ql n m c : Nat)
    (hqh : 3 * cap < 4 * qh) (hql : ¬ 3 * cap < 4 * ql) :
    ((List.foldl (adaptStep cap) ⟨0, false⟩ (List.replicate n qh)).emergency = true ↔ 4 ≤ n)
    ∧ ((List.foldl (adaptStep cap) ⟨c, true⟩ (List.replicate m ql)).emergency = false
        ↔ (c ≤ m ∧ 1 ≤ m)) := by
  constructor
  · rw [adaptStep_high_run cap qh hqh n 0]
    simp only [decide_eq_true_eq]
    omega
  · rw [adaptStep_low_run_degraded cap ql hql m c]
    simp only [decide_eq_false_iff_not]
    omega

/-- Witness for `adaptive_hysteresis_amended` at concrete threshold data. -/
theorem adaptive_hysteresis_amended_witness :
    ((List.foldl (adaptStep 4) ⟨0, false⟩ (List.replicate 4 4)).emergency = true ↔ 4 ≤ 4)
    ∧ ((List.foldl (adaptStep 4) ⟨1, true⟩ (List.replicate 1 0)).emergency = false
        ↔ (1 ≤ 1 ∧ 1 ≤ 1)) :=
  adaptive_hysteresis_amended 4 4 0 4 1 1 (by decide) (by decide)

/-- A failing merge environment: recorder present, temp video at path 1
(5000 bytes), WAV at path 2 (4000 bytes), FFmpeg found and self-tested, but
the external tool exits with code 1 and leaves no output. -/
def muxFailEnv : MuxEnv :=
  { hasRecorder := true, videoTmpPath := some 1, audioPath := 2, outputPath := 3,
    ffmpegFound := true, ffmpegTestOk := true, toolExit := some 1, outputSize := none }

/-- The file system before the failing merge: both raw artifacts present and
well above the 1024-byte minimum. -/
def muxFailFS : FS := [(1, 5000), (2, 4000)]

/-- Claim C1 (code bug): when the merge tool is found and then fails (exit
code 1), the `finally` block of `_mux_audio_video` removes both the
temporary video-only file and the raw WAV anyway, so after finalization
neither raw artifact exists; the fallback in `_finalize_recording` then
finds no audio file to copy and ends in the audio-lost branch instead of
preserving both artifacts with a partial-success result. -/
theorem mux_failure_deletes_raw_artifacts :
    (muxAudioVideo muxFailEnv muxFailFS).1 = .toolFailed
    ∧ fsExists (muxAudioVideo muxFailEnv muxFailFS).2 1 = false
    ∧ fsExists (muxAudioVideo muxFailEnv muxFailFS).2 2 = false
    ∧ (finalizeMux muxFailEnv muxFailFS 9).1 = .audioLost
    ∧ fsExists (finalizeMux muxFailEnv muxFailFS 9).2 1 = false
    ∧ fsExists (finalizeMux muxFailEnv muxFailFS 9).2 2 = false := by
  decide

/-- Environment with every file precondition satisfied except that the audio
file is exactly 1024 bytes (it does not exceed 1024), and a succeeding tool. -/
def muxBoundaryEnv : MuxEnv :=
  { hasRecorder := true, videoTmpPath := some 1, audioPath := 2, outputPath := 3,
    ffmpegFound := true, ffmpegTestOk := true, toolExit := some 0, outputSize := some 9000 }

/-- File system for the boundary case: video 2048 bytes, audio exactly 1024. -/
def muxBoundaryFS : FS := [(1, 2048), (2, 1024)]

/-- Environment with both files comfortably large but FFmpeg not found. -/
def muxNoToolEnv : MuxEnv :=
  { hasRecorder := true, videoTmpPath := some 1, audioPath := 2, outputPath := 3,
    ffmpegFound := false, ffmpegTestOk := true, toolExit := some 0, outputSize := some 9000 }

/-- File system for the missing-tool case: both files 2048 bytes. -/
def muxNoToolFS : FS := [(1, 2048), (2, 2048)]

/-- Environment whose audio file is absent, used to exercise the
error-names-the-file clause of the amended claim C6. -/
def muxNoAudioEnv : MuxEnv :=
  { hasRecorder := true, videoTmpPath := some 1, audioPath := 2, outputPath := 3,
    ffmpegFound := true, ffmpegTestOk := true, toolExit := some 0, outputSize := some 9000 }

/-- File system with only the video file present. -/
def muxNoAudioFS : FS := [(1, 2048)]

/-- Claim C6 (counterexample): the claimed equivalence fails in both
directions. With the audio file exactly 1024 bytes — so it does not
*exceed* the minimum plausible size — the merge does not raise: the size
check is `< 1024`, the tool is invoked and succeeds. Conversely, with both
files well above the minimum but FFmpeg missing, the merge raises before
invoking the tool even though no claimed file precondition is violated. -/
theorem mux_precondition_iff_fails :
    ((muxAudioVideo muxBoundaryEnv muxBoundaryFS).1 = .success
      ∧ fsSize muxBoundaryFS 2 = 1024
      ∧ ¬ 1024 < fsSize muxBoundaryFS 2)
    ∧ ((muxAudioVideo muxNoToolEnv muxNoToolFS).1 = .errNoFfmpeg
      ∧ isEarlyError (muxAudioVideo muxNoToolEnv muxNoToolFS).1 = true
      ∧ fsExists muxNoToolFS 1 = true ∧ fsExists muxNoToolFS 2 = true
      ∧ 1024 < fsSize muxNoToolFS 1 ∧ 1024 < fsSize muxNoToolFS 2) := by
  decide

/-- Once the external tool is invoked, the outcome is never one of the early
(pre-invocation) errors. -/
theorem muxInvoke_not_early (env : MuxEnv) (fs : FS) (vpath : Nat) :
    isEarlyError (muxInvoke env fs vpath).1 = false := by
  rcases hte : env.toolExit with _ | (_ | n)
  · simp [muxInvoke, hte, isEarlyError]
  · simp only [muxInvoke, hte]
    split <;> rfl
  · simp [muxInvoke, hte, isEarlyError]

/-- Claim C6 (amended): `_mux_audio_video` raises before invoking the external
tool exactly when one of its checks fails — recorder or video path unset,
either input file missing, either input file smaller than 1024 bytes
(1024 bytes exactly passes), the merge tool not found, or the tool's
self-test failing. An early failure leaves the file system untouched, and
when an input file is missing or too small the error names that file. -/
theorem mux_precondition_amended (env : MuxEnv) (fs : FS) :
    isEarlyError (muxAudioVideo env fs).1 = !(muxPreOk env fs)
    ∧ (isEarlyError (muxAudioVideo env fs).1 = true → (muxAudioVideo env fs).2 = fs)
    ∧ (∀ v, env.videoTmpPath = some v → env.hasRecorder = true →
        fsExists fs env.audioPath = false →
        (muxAudioVideo env fs).1 = .errAudioMissing env.audioPath)
    ∧ (∀ v, env.videoTmpPath = some v → env.hasRecorder = true →
        fsExists fs env.audioPath = true → fsExists fs v = false →
        (muxAudioVideo env fs).1 = .errVideoMissing v)
    ∧ (∀ v, env.videoTmpPath = some v → env.hasRecorder = true →
        fsExists fs env.audioPath = true → fsExists fs v = true →
        fsSize fs env.audioPath < 1024 →
        (muxAudioVideo env fs).1 = .errAudioSmall env.audioPath (fsSize fs env.audioPath))
    ∧ (∀ v, env.videoTmpPath = some v → env.hasRecorder = true →
        fsExists fs env.audioPath = true → fsExists fs v = true →
        1024 ≤ fsSize fs env.audioPath → fsSize fs v < 1024 →
        (muxAudioVideo env fs).1 = .errVideoSmall v (fsSize fs v)) := by
  refine ⟨?_, ?_, ?_, ?_, ?_, ?_⟩
  · rcases hvp : env.videoTmpPath with _ | v
    · simp [muxAudioVideo, muxPreOk, hvp, isEarlyError]
    · simp only [muxAudioVideo, muxPreOk, hvp]
      by_cases h1 : env.hasRecorder = false
      · simp [h1, isEarlyError]
      · have h1t : env.hasRecorder = true := by
          revert h1; cases env.hasRecorder <;> simp
        by_cases h2 : fsExists fs env.audioPath = false
        · simp [h1t, h2, isEarlyError]
        · have h2t : fsExists fs env.audioPath = true := by
            revert h2; cases fsExists fs env.audioPath <;> simp
          by_cases h3 : fsExists fs v = false
          · simp [h1t, h2t, h3, isEarlyError]
          · have h3t : fsExists fs v = true := by
              revert h3; cases fsExists fs v <;> simp
            by_cases h4 : fsSize fs env.audioPath < 1024
            · have hd4 : decide (1024 ≤ fsSize fs env.audioPath) = false :=
                decide_eq_false (by omega)
              simp [h1t, h2t, h3t, h4, hd4, isEarlyError]
            · have hd4 : decide (1024 ≤ fsSize fs env.audioPath) = true :=
                decide_eq_true (by omega)
              by_cases h5 : fsSize fs v < 1024
              · have hd5 : decide (1024 ≤ fsSize fs v) = false := decide_eq_false (by omega)
                simp [h1t, h2t, h3t, h4, hd4, h5, hd5, isEarlyError]
              · have hd5 : decide (1024 ≤ fsSize fs v) = true := decide_eq_true (by omega)
                by_cases h6 : env.ffmpegFound = false
                · simp [h1t, h2t, h3t, h4, hd4, h5, hd5, h6, isEarlyError]
                · have h6t : env.ffmpegFound = true := by
                    revert h6; cases env.ffmpegFound <;> simp
                  by_cases h7 : env.ffmpegTestOk = false
                  · simp [h1t, h2t, h3t, h4, hd4, h5, hd5, h6t, h7, isEarlyError]
                  · have h7t : env.ffmpegTestOk = true := by
                      revert h7; cases env.ffmpegTestOk <;> simp
                    simp [h1t, h2t, h3t, h4, hd4, h5, hd5, h6t, h7t, muxInvoke_not_early]
  · intro hearly
    rcases hvp : env.videoTmpPath with _ | v
    · simp [muxAudioVideo, hvp]
    · simp only [muxAudioVideo, hvp] at hearly ⊢
      by_cases h1 : env.hasRecorder = false
      · simp [h1]
      · simp only [if_neg h1] at hearly ⊢
        by_cases h2 : fsExists fs env.audioPath = false
        · simp [h2]
        · simp only [if_neg h2] at hearly ⊢
          by_cases h3 : fsExists fs v = false
          · simp [h3]
          · simp only [if_neg h3] at hearly ⊢
            by_cases h4 : fsSize fs env.audioPath < 1024
            · simp [h4]
            · simp only [if_neg h4] at hearly ⊢
              by_cases h5 : fsSize fs v < 1024
              · simp [h5]
              · simp only [if_neg h5] at hearly ⊢
                by_cases h6 : env.ffmpegFound = false
                · simp [h6]
                · simp only [if_neg h6] at hearly ⊢
                  by_cases h7 : env.ffmpegTestOk = false
                  · simp [h7]
                  · simp only [if_neg h7] at hearly ⊢
                    rw [muxInvoke_not_early] at hearly
                    exact absurd hearly (by simp)
  · intro v hv hr hmiss
    simp [muxAudioVideo, hv, hr, hmiss]
  · intro v hv hr haud hmiss
    simp [muxAudioVideo, hv, hr, haud, hmiss]
  · intro v hv hr haud hvid hsmall
    simp [muxAudioVideo, hv, hr, haud, hvid, hsmall]
  · intro v hv hr haud hvid hbig hsmall
    simp [muxAudioVideo, hv, hr, haud, hvid, hsmall, Nat.not_lt.mpr hbig]

/-- Witness for `mux_precondition_amended`: a missing audio file is reported
as an error naming that file. -/
theorem mux_precondition_amended_witness :
    (muxAudioVideo muxNoAudioEnv muxNoAudioFS).1 = .errAudioMissing 2 :=
  (mux_precondition_amended muxNoAudioEnv muxNoAudioFS).2.2.1 1 rfl rfl (by decide)

/-- Claim C9: `_emit_status` never raises into the emitting caller. For every
injected status callback — including one that returns an error for the
message — the emission completes normally; the `except Exception: pass`
guard swallows whatever the user-supplied callback does. Every component of
the recorder emits through this sink (the AudioRecorder is constructed with
`status_callback=self._emit_status`, video.py 733). -/
theorem emit_status_never_raises (cb : String → Except String Unit) (msg : String) :
    emitStatus cb msg = .ok () := by
  unfold emitStatus
  cases cb msg <;> rfl

/-- Helper: the index loop of `probe_cameras` never collects more than one
index, for any fuel and starting index. -/
theorem probeGo_length_le_one (opens : Nat → Nat → Bool) (backends : List Nat) :
    ∀ fuel i, (probeGo opens backends fuel i).length ≤ 1 := by
  intro fuel
  induction fuel with
  | zero => intro i; simp [probeGo]
  | succ n ih =>
    intro i
    by_cases h : probeInner opens i backends
    · simp [probeGo, h]
    · simp only [probeGo, if_neg h]
      exact ih (i + 1)

/-- Claim C10: for any positive `max_index`, any backend list and any camera
oracle, `probe_cameras` returns at most one camera index — the outer loop
breaks as soon as the first openable camera is found. -/
theorem probe_cameras_at_most_one (opens : Nat → Nat → Bool) (backends : List Nat)
    (max_index : Nat) (h : 0 < max_index) :
    (probe_cameras opens backends max_index).length ≤ 1 :=
  probeGo_length_le_one opens backends max_index 0

/-- Witness for `probe_cameras_at_most_one` at the default probe depth with
every camera openable. -/
theorem probe_cameras_at_most_one_witness :
    (probe_cameras (fun _ _ => true) [0] 6).length ≤ 1 :=
  probe_cameras_at_most_one (fun _ _ => true) [0] 6 (by decide)
